import Mathlib

/-!
Shallow embedding of the sentinel-crt module-orchestration core:
`src/sentinel/core/module_manager.py`, `src/sentinel/core/module.py` and
`src/sentinel/core/event_bus.py`.

Python dicts are modelled as insertion-ordered association lists, the
monotonic clock and all durations by `ℚ`, rule weights by `ℤ`.  Lifecycle
hooks (`on_load`, `on_unload`, `on_show`, `on_hide`) are recorded as trace
events; whether a subclass's `on_unload` raises is a boolean behaviour flag
on the module.
-/

namespace Sentinel

/-- Association-list read, mirroring Python `d.get(k)` on a dict. -/
def lookupKey {α : Type} (k : String) : List (String × α) → Option α
  | [] => none
  | (k', v) :: rest => if k' = k then some v else lookupKey k rest

/-- Python `d[k] = v`: replace the binding in place, else append a fresh one
(dicts keep the original position of an updated key). -/
def setKey {α : Type} (k : String) (v : α) : List (String × α) → List (String × α)
  | [] => [(k, v)]
  | (k', v') :: rest => if k' = k then (k, v) :: rest else (k', v') :: setKey k v rest

/-- Python `d.pop(k, None)`: drop the binding for `k`. -/
def popKey {α : Type} (k : String) : List (String × α) → List (String × α)
  | [] => []
  | (k', v') :: rest => if k' = k then popKey k rest else (k', v') :: popKey k rest

/-- Mutate the value stored under `k` in place (Python `d[k].field = ...`). -/
def mapKey {α : Type} (k : String) (f : α → α) : List (String × α) → List (String × α)
  | [] => []
  | (k', v') :: rest =>
      if k' = k then (k', f v') :: mapKey k f rest else (k', v') :: mapKey k f rest

/-- Index of the first occurrence of `x`, mirroring Python `list.index`
(callers guard membership first). -/
def idxOf (x : String) : List String → Nat
  | [] => 0
  | y :: ys => if y = x then 0 else idxOf x ys + 1

/-- Embeds dataclass `ModuleState` (module_manager.py): the latest state
reported by a module. -/
structure ModuleState where
  state : String
  metadata : List (String × String) := []
  weight_override : Option Int := none
  expires_in : Option ℚ := none
  timestamp : ℚ := 0
deriving Repr, DecidableEq

/-- Embeds `ModuleState.is_expired`: effective timeout is `expires_in` when
set, else `default_timeout`; a timeout `≤ 0` never expires; otherwise expired
exactly when `now - timestamp > timeout` (strictly). -/
def ModuleState.is_expired (s : ModuleState) (now default_timeout : ℚ) : Bool :=
  let timeout := match s.expires_in with
    | some t => t
    | none => default_timeout
  if timeout ≤ 0 then false
  else decide (now - s.timestamp > timeout)

/-- Embeds dataclass `PriorityRule` (module_manager.py). -/
structure PriorityRule where
  module : String
  states : List String
  weight : Int
  screen : String
deriving Repr, DecidableEq

/-- Loop body of `ModuleManager._resolve_priority`.  `best` packs the Python
locals `(best_screen, best_weight)`; `best.2 = none` stands for the initial
`float("-inf")`, which every integer weight beats. -/
def resolveStep (states : List (String × ModuleState))
    (best : Option String × Option Int) (rule : PriorityRule) :
    Option String × Option Int :=
  match lookupKey rule.module states with
  | none => best
  | some module_state =>
      if rule.states ≠ [] ∧ module_state.state ∉ rule.states then best
      else
        let weight : Int :=
          match module_state.weight_override with
          | some w => w
          | none => rule.weight
        match best.2 with
        | none => (some rule.screen, some weight)
        | some bw => if weight > bw then (some rule.screen, some weight) else best

/-- Embeds `ModuleManager._resolve_priority` as a function of the rule table
and the live state store. -/
def resolvePriority (rules : List PriorityRule)
    (states : List (String × ModuleState)) : Option String :=
  (rules.foldl (resolveStep states) (none, none)).1

/-- Whether a rule matches the store: its module has a stored state and the
rule's `states` list is empty or contains the state's label (the negation of
the two `continue` guards in `_resolve_priority`). -/
def ruleMatches (states : List (String × ModuleState)) (rule : PriorityRule) : Bool :=
  match lookupKey rule.module states with
  | none => false
  | some module_state =>
      decide (¬(rule.states ≠ [] ∧ module_state.state ∉ rule.states))

/-- The effective weight `_resolve_priority` uses for a rule: the stored
state's `weight_override` when present, else the rule's static `weight`. -/
def effWeight (states : List (String × ModuleState)) (rule : PriorityRule) : Int :=
  match lookupKey rule.module states with
  | some st =>
      match st.weight_override with
      | some w => w
      | none => rule.weight
  | none => rule.weight

/-- The first element of `l` attaining the maximum of `f`: a later element
replaces the running best only on a strictly greater value. -/
def firstMaxBy {α : Type} (f : α → Int) : List α → Option α
  | [] => none
  | x :: xs =>
      match firstMaxBy f xs with
      | none => some x
      | some y => if f y > f x then some y else some x

/-- Lifecycle hook invocations observed during a manager operation, in call
order. -/
inductive Hook where
  | onLoad (name : String)
  | onUnload (name : String)
  | onShow (name : String)
  | onHide (name : String)
deriving Repr, DecidableEq

/-- Embeds the runtime fields of `ScreenModule` (module.py) read or written
by the orchestration logic.  `unloadRaises` models whether the subclass's
`on_unload` hook raises when invoked. -/
structure ScreenModule where
  name : Option String := none
  hasManager : Bool := false
  hasApp : Bool := false
  active : Bool := false
  unloadRaises : Bool := false
deriving Repr, DecidableEq

/-- Embeds `ScreenModule.bind`: set the identity fields, then fire the
`on_load` hook. -/
def ScreenModule.bind (m : ScreenModule) (n : String) : ScreenModule × List Hook :=
  ({ m with name := some n, hasManager := true, hasApp := true }, [Hook.onLoad n])

/-- Embeds `ScreenModule.unbind`: `try: on_unload() finally: clear fields`.
The boolean records whether the hook's exception propagates to the caller —
there is an unconditional `finally` but no `except`, so a raising hook still
escapes after the fields are cleared. -/
def ScreenModule.unbind (m : ScreenModule) : ScreenModule × Bool :=
  ({ m with active := false, hasManager := false, hasApp := false, name := none },
   m.unloadRaises)

/-- Embeds the `ModuleManager` state (module_manager.py).  Registries are
insertion-ordered association lists, mirroring Python dicts.
`app_current_screen` models the host application's mirrored screen-name
attribute. -/
structure Manager where
  modules : List (String × ScreenModule) := []
  states : List (String × ModuleState) := []
  rules : List PriorityRule := []
  idle_cycle : List String := []
  idle_index : Nat := 0
  idle_timer : ℚ := 0
  idle_dwell : ℚ := 20
  state_timeout : ℚ := 15
  current_screen : Option String := none
  app_current_screen : Option String := none
deriving Repr, DecidableEq

/-- First half of `ModuleManager._activate`: `if self.current_screen and
self.current_screen in self._modules`, deactivate and hide the previous
screen.  An empty-string screen name is falsy in Python, hence the explicit
`cs = ""` case. -/
def Manager.hidePrevious (mgr : Manager) : Manager × List Hook :=
  match mgr.current_screen with
  | none => (mgr, [])
  | some cs =>
      if cs = "" then (mgr, [])
      else
        match lookupKey cs mgr.modules with
        | none => (mgr, [])
        | some _ =>
            ({ mgr with
                modules := mapKey cs (fun m => { m with active := false }) mgr.modules },
             [Hook.onHide cs])

/-- Embeds `ModuleManager._activate`: no-op when `name` is unregistered;
otherwise hide the previous screen, set `current_screen`, mark the module
active and fire `on_show`, mirror the name onto the app, and move the idle
cursor to `name`'s position when it belongs to the idle cycle. -/
def Manager.activate (mgr : Manager) (name : String) : Manager × List Hook :=
  match lookupKey name mgr.modules with
  | none => (mgr, [])
  | some _ =>
      let p := mgr.hidePrevious
      let mgr2 := { p.1 with
        current_screen := some name,
        modules := mapKey name (fun m => { m with active := true }) p.1.modules,
        app_current_screen := some name }
      let mgr3 :=
        if name ∈ mgr2.idle_cycle
        then { mgr2 with idle_index := idxOf name mgr2.idle_cycle }
        else mgr2
      (mgr3, p.2 ++ [Hook.onShow name])

/-- Embeds `ModuleManager.set_active`: reset the idle timer, then activate. -/
def Manager.set_active (mgr : Manager) (name : String) : Manager × List Hook :=
  Manager.activate { mgr with idle_timer := 0 } name

/-- The membership test `self.current_screen not in self._idle_cycle`
negated: `None` is never a member of a list of names. -/
def Manager.currentInCycle (mgr : Manager) : Bool :=
  match mgr.current_screen with
  | none => false
  | some cs => decide (cs ∈ mgr.idle_cycle)

/-- Embeds `ModuleManager._advance_idle`: no-op on an empty cycle; when the
current screen is outside the cycle, reset the cursor and activate the first
entry with a zeroed timer; otherwise accumulate `dt` and, once the timer
reaches the dwell, zero it, step the cursor circularly and activate the entry
at the new cursor. -/
def Manager.advanceIdle (mgr : Manager) (dt : ℚ) : Manager × List Hook :=
  if mgr.idle_cycle = [] then (mgr, [])
  else if ¬ mgr.currentInCycle then
    let p := Manager.activate { mgr with idle_index := 0 } mgr.idle_cycle.headI
    ({ p.1 with idle_timer := 0 }, p.2)
  else if mgr.idle_timer + dt < mgr.idle_dwell then
    ({ mgr with idle_timer := mgr.idle_timer + dt }, [])
  else
    Manager.activate
      { mgr with
        idle_timer := 0
        idle_index := (mgr.idle_index + 1) % mgr.idle_cycle.length }
      (mgr.idle_cycle.getD ((mgr.idle_index + 1) % mgr.idle_cycle.length) "")

/-- The state store after `update`'s expiry sweep: every stored state whose
`is_expired` holds at `now` is dropped. -/
def Manager.expireStates (mgr : Manager) (now : ℚ) : List (String × ModuleState) :=
  mgr.states.filter (fun p => !(p.2.is_expired now mgr.state_timeout))

/-- The resolver's outcome as consumed by `update`'s `if target_screen:`
guard — `None` and the empty string are both falsy in Python. -/
def Manager.resolveTarget (mgr : Manager) : Option String :=
  match resolvePriority mgr.rules mgr.states with
  | none => none
  | some s => if s = "" then none else some s

/-- Embeds `ModuleManager.update(dt)` with the monotonic clock passed
explicitly: expire stale states, resolve priority (each module's base
`update` hook has no manager-visible effect), activate the winner when it
differs from the current screen and zero the idle timer, else advance the
idle cycle. -/
def Manager.update (mgr : Manager) (now dt : ℚ) : Manager × List Hook :=
  let mgr1 := { mgr with states := mgr.expireStates now }
  match Manager.resolveTarget mgr1 with
  | some target =>
      let p := if some target ≠ mgr1.current_screen
        then Manager.activate mgr1 target else (mgr1, [])
      ({ p.1 with idle_timer := 0 }, p.2)
  | none => Manager.advanceIdle mgr1 dt

/-- Iterated `update` with a fixed clock reading and time step. -/
def Manager.updateIter (mgr : Manager) (now dt : ℚ) : Nat → Manager
  | 0 => mgr
  | k + 1 => ((mgr.updateIter now dt k).update now dt).1

/-- Embeds `ModuleManager.register`: `ValueError` on a duplicate name, else
bind the module (firing `on_load`), force `active := false` and append it to
the registry. -/
def Manager.register (mgr : Manager) (name : String) (module : ScreenModule) :
    Except String (Manager × List Hook) :=
  match lookupKey name mgr.modules with
  | some _ => Except.error "already registered"
  | none =>
      let p := module.bind name
      Except.ok
        ({ mgr with modules := mgr.modules ++ [(name, { p.1 with active := false })] },
         p.2)

/-- Embeds `ModuleManager.unregister`.  The boolean records whether the
module's `on_unload` exception propagated out of `unbind`; when it does, the
remaining cleanup (dropping the stored state, clearing `current_screen`) is
skipped, exactly as in the Python control flow. -/
def Manager.unregister (mgr : Manager) (name : String) :
    Manager × List Hook × Bool :=
  match lookupKey name mgr.modules with
  | none => (mgr, [], false)
  | some m =>
      let mgr1 := { mgr with modules := popKey name mgr.modules }
      let u := m.unbind
      if u.2 then (mgr1, [Hook.onUnload name], true)
      else
        let mgr2 := { mgr1 with states := popKey name mgr1.states }
        let mgr3 :=
          if mgr2.current_screen = some name
          then { mgr2 with current_screen := none }
          else mgr2
        (mgr3, [Hook.onUnload name], false)

/-- Embeds `ModuleManager.render`: the module whose `render` is invoked, if
any (`if not self.current_screen` treats the empty string as falsy, and an
unregistered current screen is skipped). -/
def Manager.renderTarget (mgr : Manager) : Option String :=
  match mgr.current_screen with
  | none => none
  | some cs =>
      if cs = "" then none
      else
        match lookupKey cs mgr.modules with
        | none => none
        | some _ => some cs

/-- Embeds `ModuleManager.handle_event`: the module receiving the event, if
any; the guards are identical to `render`'s. -/
def Manager.handleEventTarget (mgr : Manager) : Option String :=
  match mgr.current_screen with
  | none => none
  | some cs =>
      if cs = "" then none
      else
        match lookupKey cs mgr.modules with
        | none => none
        | some _ => some cs

/-- Embeds `ModuleManager.report_state`: unconditionally replace the stored
state with a freshly time-stamped record. -/
def Manager.reportState (mgr : Manager) (module : String) (state : String)
    (metadata : List (String × String)) (weight : Option Int)
    (expires_in : Option ℚ) (now : ℚ) : Manager :=
  { mgr with
      states := setKey module
        ({ state := state, metadata := metadata, weight_override := weight,
           expires_in := expires_in, timestamp := now } : ModuleState) mgr.states }

/-- Embeds `ModuleManager.clear_state`. -/
def Manager.clearState (mgr : Manager) (module : String) : Manager :=
  { mgr with states := popKey module mgr.states }

/-- Embeds the idle-cycle normalisation at the end of
`ModuleManager.__init__`: when the cycle (constructor argument or priority
config) is empty fall back to all registered names, then filter out
unregistered names, falling back again to all registered names when the
filter empties a non-trivial registry. -/
def initIdleCycle (cycle0 : List String) (modNames : List String) : List String :=
  let c1 := if cycle0 = [] then modNames else cycle0
  if c1 = [] then c1
  else
    let c2 := c1.filter (fun n => decide (n ∈ modNames))
    if c2 = [] ∧ modNames ≠ [] then modNames else c2

/-- Embeds `ModuleManager.__init__` for an already-built module list with
pairwise-distinct names (Python would raise on a duplicate): bind every
module, then normalise the idle cycle. -/
def mkManager (modules : List (String × ScreenModule)) (cycle0 : List String)
    (rules : List PriorityRule) (timeout dwell : ℚ) : Manager :=
  { modules := modules.map (fun p => (p.1, { (p.2.bind p.1).1 with active := false })),
    states := [],
    rules := rules,
    idle_cycle := initIdleCycle cycle0 (modules.map Prod.fst),
    idle_index := 0,
    idle_timer := 0,
    idle_dwell := dwell,
    state_timeout := timeout,
    current_screen := none,
    app_current_screen := none }

/-- An event-bus handler: `hid` identifies it, `callable` models Python's
`callable(handler)` test, `raisesOn` whether invoking it on a given payload
raises. -/
structure Handler (π : Type) where
  hid : Nat
  callable : Bool := true
  raisesOn : π → Bool := fun _ => false

/-- Embeds the `EventBus` handler registry (`defaultdict(list)`). -/
structure EventBus (π : Type) where
  handlers : List (String × List (Handler π)) := []

/-- Embeds `EventBus.subscribe`: `TypeError` when the handler is not
callable, else append it to the topic's list. -/
def EventBus.subscribe {π : Type} (bus : EventBus π) (event : String)
    (h : Handler π) : Except String (EventBus π) :=
  if ¬ h.callable then Except.error "event handler must be callable"
  else Except.ok { bus with
    handlers :=
      setKey event ((lookupKey event bus.handlers).getD [] ++ [h]) bus.handlers }

/-- The delivery loop of `EventBus.publish`: invoke each handler of the
snapshot in order, recording its id and whether it raised; the per-handler
`except Exception` catches the raise, so the loop always continues to the
next handler. -/
def runHandlers {π : Type} (payload : π) : List (Handler π) → List (Nat × Bool)
  | [] => []
  | h :: rest => (h.hid, h.raisesOn payload) :: runHandlers payload rest

/-- Embeds `EventBus.publish`: snapshot the topic's handler list, then run
the delivery loop.  The return type has no error channel: no handler
exception propagates to the caller. -/
def EventBus.publish {π : Type} (bus : EventBus π) (event : String)
    (payload : π) : List (Nat × Bool) :=
  runHandlers payload ((lookupKey event bus.handlers).getD [])

/-! Concrete fixtures used to evaluate the development on closed inputs. -/

/-- A plain screen module with default runtime fields. -/
def sampleModule : ScreenModule := {}

/-- The camera rule of the spec's worked scenario. -/
def cameraRule : PriorityRule :=
  { module := "camera", states := ["danger", "warning"], weight := 100, screen := "camera" }

/-- The radar rule of the spec's worked scenario. -/
def radarRule : PriorityRule :=
  { module := "radar", states := ["air-traffic"], weight := 80, screen := "radar" }

/-- A camera report with label `warning`. -/
def cameraState : ModuleState := { state := "warning" }

/-- A radar report with label `air-traffic`. -/
def radarState : ModuleState := { state := "air-traffic" }

/-- A report carrying a `weight_override`. -/
def overrideState : ModuleState := { state := "warning", weight_override := some 1000 }

/-- A three-screen manager idling over `[a, b, c]` with a 20-second dwell,
currently on `a`. -/
def idleManager : Manager :=
  { modules := [("a", sampleModule), ("b", sampleModule), ("c", sampleModule)],
    idle_cycle := ["a", "b", "c"],
    idle_dwell := 20,
    current_screen := some "a" }

/-- A one-screen manager whose single module is active. -/
def activeManager : Manager :=
  { modules := [("a", { sampleModule with active := true })],
    current_screen := some "a" }

/-- A manager whose rule table keeps resolving the already-current screen. -/
def ruleManager : Manager :=
  { modules := [("a", { sampleModule with active := true })],
    states := [("m", { state := "s" })],
    rules := [{ module := "m", states := [], weight := 1, screen := "a" }],
    idle_timer := 9,
    current_screen := some "a" }

/-- A manager holding one reported state, for the expiry claims. -/
def stateManager : Manager :=
  { states := [("camera", cameraState)] }

/-- A manager about to unregister its active screen. -/
def unregManager : Manager :=
  { modules := [("a", sampleModule)],
    states := [("a", cameraState)],
    current_screen := some "a" }

/-- A manager whose single module's `on_unload` raises. -/
def raiseManager : Manager :=
  { modules := [("a", { sampleModule with unloadRaises := true })],
    states := [("a", cameraState)],
    current_screen := some "a" }

/-- A well-behaved handler. -/
def okHandler : Handler Nat := { hid := 1 }

/-- A handler that raises on every payload. -/
def raisingHandler : Handler Nat := { hid := 2, raisesOn := fun _ => true }

/-- A non-callable subscription argument. -/
def badHandler : Handler Nat := { hid := 3, callable := false }

/-- A bus with two handlers on one topic. -/
def sampleBus : EventBus Nat :=
  { handlers := [("topic", [okHandler, raisingHandler])] }

/-! ### Lemmas about the priority resolver -/

lemma resolveStep_not_matched (states : List (String × ModuleState))
    (best : Option String × Option Int) (rule : PriorityRule)
    (h : ruleMatches states rule = false) :
    resolveStep states best rule = best := by
  unfold resolveStep
  unfold ruleMatches at h
  cases hlk : lookupKey rule.module states with
  | none => simp [hlk]
  | some st =>
      rw [hlk] at h
      simp only [decide_eq_false_iff_not, not_not] at h
      simp [hlk, h]

lemma effWeight_of_lookup (states : List (String × ModuleState))
    (rule : PriorityRule) (st : ModuleState)
    (hlk : lookupKey rule.module states = some st) :
    effWeight states rule =
      match st.weight_override with
      | some w => w
      | none => rule.weight := by
  unfold effWeight
  rw [hlk]

lemma resolveStep_matched_start (states : List (String × ModuleState))
    (rule : PriorityRule) (h : ruleMatches states rule = true) :
    resolveStep states (none, none) rule =
      (some rule.screen, some (effWeight states rule)) := by
  unfold resolveStep
  unfold ruleMatches at h
  cases hlk : lookupKey rule.module states with
  | none => rw [hlk] at h; exact absurd h (by simp)
  | some st =>
      rw [hlk] at h
      simp only [decide_eq_true_eq] at h
      rw [effWeight_of_lookup states rule st hlk]
      simp [hlk, h]

lemma resolveStep_matched_some (states : List (String × ModuleState))
    (rule : PriorityRule) (s : String) (w : Int)
    (h : ruleMatches states rule = true) :
    resolveStep states (some s, some w) rule =
      if effWeight states rule > w
      then (some rule.screen, some (effWeight states rule))
      else (some s, some w) := by
  unfold resolveStep
  unfold ruleMatches at h
  cases hlk : lookupKey rule.module states with
  | none => rw [hlk] at h; exact absurd h (by simp)
  | some st =>
      rw [hlk] at h
      simp only [decide_eq_true_eq] at h
      rw [effWeight_of_lookup states rule st hlk]
      simp [hlk, h]

lemma foldl_resolveStep_some (states : List (String × ModuleState)) :
    ∀ (rs : List PriorityRule) (s : String) (w : Int),
    rs.foldl (resolveStep states) (some s, some w) =
      match firstMaxBy (effWeight states) (rs.filter (ruleMatches states)) with
      | none => (some s, some w)
      | some r => if effWeight states r > w
          then (some r.screen, some (effWeight states r))
          else (some s, some w)
  | [], s, w => by simp [firstMaxBy]
  | r :: rs, s, w => by
      rw [List.foldl_cons]
      by_cases hm : ruleMatches states r
      · rw [List.filter_cons_of_pos hm, resolveStep_matched_some states r s w hm]
        by_cases hgt : effWeight states r > w
        · rw [if_pos hgt, foldl_resolveStep_some states rs r.screen (effWeight states r)]
          simp only [firstMaxBy]
          cases hF : firstMaxBy (effWeight states) (rs.filter (ruleMatches states)) with
          | none => simp [hgt]
          | some y =>
              by_cases hy : effWeight states y > effWeight states r
              · have : effWeight states y > w := by omega
                simp [hy, this]
              · simp [hy, hgt]
        · rw [if_neg hgt, foldl_resolveStep_some states rs s w]
          simp only [firstMaxBy]
          cases hF : firstMaxBy (effWeight states) (rs.filter (ruleMatches states)) with
          | none => simp [hgt]
          | some y =>
              by_cases hy : effWeight states y > effWeight states r
              · simp [hy]
              · have : ¬ effWeight states y > w := by omega
                simp [hy, hgt, this]
      · rw [resolveStep_not_matched states _ r (by simpa using hm),
          List.filter_cons_of_neg (by simpa using hm)]
        exact foldl_resolveStep_some states rs s w

lemma foldl_resolveStep_start (states : List (String × ModuleState)) :
    ∀ (rs : List PriorityRule),
    rs.foldl (resolveStep states) (none, none) =
      match firstMaxBy (effWeight states) (rs.filter (ruleMatches states)) with
      | none => ((none : Option String), (none : Option Int))
      | some r => (some r.screen, some (effWeight states r))
  | [] => by simp [firstMaxBy]
  | r :: rs => by
      rw [List.foldl_cons]
      by_cases hm : ruleMatches states r
      · rw [List.filter_cons_of_pos hm, resolveStep_matched_start states r hm,
          foldl_resolveStep_some states rs r.screen (effWeight states r)]
        simp only [firstMaxBy]
        cases hF : firstMaxBy (effWeight states) (rs.filter (ruleMatches states)) with
        | none => simp
        | some y =>
            by_cases hy : effWeight states y > effWeight states r
            · simp [hy]
            · simp [hy]
      · rw [resolveStep_not_matched states _ r (by simpa using hm),
          List.filter_cons_of_neg (by simpa using hm)]
        exact foldl_resolveStep_start states rs

lemma firstMaxBy_eq_none {α : Type} (f : α → Int) :
    ∀ (l : List α), firstMaxBy f l = none ↔ l = []
  | [] => by simp [firstMaxBy]
  | x :: xs => by
      simp only [firstMaxBy]
      cases hF : firstMaxBy f xs with
      | none => simp
      | some y => by_cases hy : f y > f x <;> simp [hy]

lemma firstMaxBy_first_argmax {α : Type} (f : α → Int) :
    ∀ (l : List α) (r : α), firstMaxBy f l = some r →
      ∃ l1 l2, l = l1 ++ r :: l2 ∧
        (∀ q ∈ l1, f q < f r) ∧ (∀ q ∈ l2, f q ≤ f r)
  | [], r => by simp [firstMaxBy]
  | x :: xs, r => by
      intro h
      simp only [firstMaxBy] at h
      cases hF : firstMaxBy f xs with
      | none =>
          rw [hF] at h
          have hxs : xs = [] := (firstMaxBy_eq_none f xs).mp hF
          have hrx : x = r := by simpa using h
          subst hrx
          exact ⟨[], xs, by simp, by simp, by simp [hxs]⟩
      | some y =>
          rw [hF] at h
          simp only [Option.some_inj] at h
          by_cases hy : f y > f x
          · rw [if_pos hy] at h
            obtain ⟨l1, l2, hsplit, hlt, hle⟩ := firstMaxBy_first_argmax f xs y hF
            have hry : r = y := by simpa using h.symm
            subst hry
            refine ⟨x :: l1, l2, by simp [hsplit], ?_, hle⟩
            intro q hq
            rcases List.mem_cons.mp hq with hq | hq
            · subst hq; exact hy
            · exact hlt q hq
          · rw [if_neg hy] at h
            have hrx : r = x := by simpa using h.symm
            subst hrx
            obtain ⟨l1, l2, hsplit, hlt, hle⟩ := firstMaxBy_first_argmax f xs y hF
            refine ⟨[], xs, by simp, by simp, ?_⟩
            intro q hq
            have hyr : f y ≤ f r := by omega
            rw [hsplit] at hq
            rcases List.mem_append.mp hq with hq | hq
            · have := hlt q hq; omega
            · rcases List.mem_cons.mp hq with hq | hq
              · subst hq; exact hyr
              · have := hle q hq; omega

/-! ### Dictionary lemmas -/

lemma lookupKey_eq_none_iff {α : Type} (k : String) :
    ∀ (l : List (String × α)), lookupKey k l = none ↔ k ∉ l.map Prod.fst
  | [] => by simp [lookupKey]
  | (k', v') :: rest => by
      simp only [lookupKey, List.map_cons, List.mem_cons]
      by_cases h : k' = k
      · simp [h]
      · simp [h, lookupKey_eq_none_iff k rest, Ne.symm h]

lemma lookupKey_filter_none {α : Type} (p : String × α → Bool) (k : String)
    (l : List (String × α)) (h : lookupKey k l = none) :
    lookupKey k (l.filter p) = none := by
  rw [lookupKey_eq_none_iff] at h ⊢
  intro hmem
  have hsub : List.Sublist (l.filter p) l := l.filter_sublist
  exact h ((hsub.map Prod.fst).subset hmem)

lemma lookupKey_filter_nodup {α : Type} (p : String × α → Bool) (k : String)
    (v : α) :
    ∀ (l : List (String × α)), (l.map Prod.fst).Nodup →
      lookupKey k l = some v →
      lookupKey k (l.filter p) = if p (k, v) then some v else none
  | [], _, h => by simp [lookupKey] at h
  | (k', v') :: rest, hnd, h => by
      simp only [List.map_cons, List.nodup_cons] at hnd
      by_cases hk : k' = k
      · subst hk
        simp only [lookupKey, if_pos rfl] at h
        have hv : v' = v := by simpa using h
        subst hv
        by_cases hp : p (k', v')
        · simp [List.filter_cons_of_pos hp, lookupKey, hp]
        · rw [List.filter_cons_of_neg hp, if_neg hp]
          exact lookupKey_filter_none p k' rest
            ((lookupKey_eq_none_iff k' rest).mpr hnd.1)
      · simp only [lookupKey, if_neg hk] at h
        have ih := lookupKey_filter_nodup p k v rest hnd.2 h
        by_cases hp : p (k', v')
        · rw [List.filter_cons_of_pos hp]
          simpa [lookupKey, hk] using ih
        · rw [List.filter_cons_of_neg hp]
          exact ih

lemma lookupKey_popKey_self {α : Type} (k : String) :
    ∀ (l : List (String × α)), lookupKey k (popKey k l) = none
  | [] => by simp [popKey, lookupKey]
  | (k', v') :: rest => by
      by_cases hk : k' = k
      · simp [popKey, hk, lookupKey_popKey_self k rest]
      · simp [popKey, hk, lookupKey, lookupKey_popKey_self k rest]

lemma mapKey_keys {α : Type} (k : String) (f : α → α) :
    ∀ (l : List (String × α)), (mapKey k f l).map Prod.fst = l.map Prod.fst
  | [] => by simp [mapKey]
  | (k', v') :: rest => by
      by_cases hk : k' = k <;> simp [mapKey, hk, mapKey_keys k f rest]

lemma lookupKey_isSome_iff {α : Type} (k : String) (l : List (String × α)) :
    (lookupKey k l).isSome ↔ k ∈ l.map Prod.fst := by
  cases h : lookupKey k l with
  | none => simpa using (lookupKey_eq_none_iff k l).mp h
  | some v =>
      simp only [Option.isSome_some, true_iff]
      by_contra hmem
      rw [← lookupKey_eq_none_iff k l] at hmem
      rw [h] at hmem
      exact Option.noConfusion hmem

/-! ### Structural lemmas about manager operations -/

lemma hidePrevious_fields (mgr : Manager) :
    (mgr.hidePrevious).1.states = mgr.states ∧
    (mgr.hidePrevious).1.rules = mgr.rules ∧
    (mgr.hidePrevious).1.idle_cycle = mgr.idle_cycle ∧
    (mgr.hidePrevious).1.idle_index = mgr.idle_index ∧
    (mgr.hidePrevious).1.idle_timer = mgr.idle_timer ∧
    (mgr.hidePrevious).1.idle_dwell = mgr.idle_dwell ∧
    (mgr.hidePrevious).1.state_timeout = mgr.state_timeout ∧
    (mgr.hidePrevious).1.current_screen = mgr.current_screen ∧
    (mgr.hidePrevious).1.modules.map Prod.fst = mgr.modules.map Prod.fst := by
  unfold Manager.hidePrevious
  cases hcs : mgr.current_screen with
  | none => simp [hcs]
  | some cs =>
      by_cases h0 : cs = ""
      · simp [h0, hcs]
      · cases hlk : lookupKey cs mgr.modules with
        | none => simp [h0, hlk, hcs]
        | some m => simp [h0, hlk, mapKey_keys, hcs]

lemma activate_fields (mgr : Manager) (name : String) :
    (mgr.activate name).1.states = mgr.states ∧
    (mgr.activate name).1.rules = mgr.rules ∧
    (mgr.activate name).1.idle_cycle = mgr.idle_cycle ∧
    (mgr.activate name).1.idle_timer = mgr.idle_timer ∧
    (mgr.activate name).1.idle_dwell = mgr.idle_dwell ∧
    (mgr.activate name).1.state_timeout = mgr.state_timeout ∧
    (mgr.activate name).1.modules.map Prod.fst = mgr.modules.map Prod.fst := by
  obtain ⟨h1, h2, h3, h4, h5, h6, h7, h8, h9⟩ := hidePrevious_fields mgr
  unfold Manager.activate
  cases hlk : lookupKey name mgr.modules with
  | none => simp
  | some m =>
      simp only [h1, h2, h3, h4, h5, h6, h7]
      by_cases hin : name ∈ mgr.idle_cycle
      · simp [hin, mapKey_keys, h9]
      · simp [hin, mapKey_keys, h9]

lemma activate_current (mgr : Manager) (name : String)
    (h : (lookupKey name mgr.modules).isSome) :
    (mgr.activate name).1.current_screen = some name := by
  unfold Manager.activate
  cases hlk : lookupKey name mgr.modules with
  | none => rw [hlk] at h; exact absurd h (by simp)
  | some m =>
      by_cases hin : name ∈ (mgr.hidePrevious).1.idle_cycle <;> simp [hin]

lemma activate_idle_index (mgr : Manager) (name : String)
    (h : (lookupKey name mgr.modules).isSome) (hin : name ∈ mgr.idle_cycle) :
    (mgr.activate name).1.idle_index = idxOf name mgr.idle_cycle := by
  have h3 := (hidePrevious_fields mgr).2.2.1
  unfold Manager.activate
  cases hlk : lookupKey name mgr.modules with
  | none => rw [hlk] at h; exact absurd h (by simp)
  | some m =>
      simp only [h3]
      simp [hin]

lemma advanceIdle_fields (mgr : Manager) (dt : ℚ) :
    (mgr.advanceIdle dt).1.states = mgr.states ∧
    (mgr.advanceIdle dt).1.rules = mgr.rules ∧
    (mgr.advanceIdle dt).1.idle_cycle = mgr.idle_cycle ∧
    (mgr.advanceIdle dt).1.idle_dwell = mgr.idle_dwell ∧
    (mgr.advanceIdle dt).1.state_timeout = mgr.state_timeout ∧
    (mgr.advanceIdle dt).1.modules.map Prod.fst = mgr.modules.map Prod.fst := by
  unfold Manager.advanceIdle
  by_cases hc : mgr.idle_cycle = []
  · simp [hc]
  · rw [if_neg hc]
    by_cases hb : ¬ mgr.currentInCycle
    · rw [if_pos hb]
      obtain ⟨g1, g2, g3, _, g5, g6, g7⟩ :=
        activate_fields { mgr with idle_index := 0 } mgr.idle_cycle.headI
      exact ⟨g1, g2, g3, g5, g6, g7⟩
    · rw [if_neg hb]
      by_cases ht : mgr.idle_timer + dt < mgr.idle_dwell
      · simp [ht]
      · rw [if_neg ht]
        obtain ⟨g1, g2, g3, _, g5, g6, g7⟩ :=
          activate_fields
            { mgr with
              idle_timer := 0
              idle_index := (mgr.idle_index + 1) % mgr.idle_cycle.length }
            (mgr.idle_cycle.getD ((mgr.idle_index + 1) % mgr.idle_cycle.length) "")
        exact ⟨g1, g2, g3, g5, g6, g7⟩

lemma update_states (mgr : Manager) (now dt : ℚ) :
    (mgr.update now dt).1.states = mgr.expireStates now := by
  unfold Manager.update
  dsimp only
  split
  · rename_i target heq
    split
    · exact (activate_fields _ target).1
    · rfl
  · exact (advanceIdle_fields _ dt).1

lemma is_expired_spec (st : ModuleState) (now T : ℚ) :
    st.is_expired now T =
      (if st.expires_in.getD T ≤ 0 then false
       else decide (now - st.timestamp > st.expires_in.getD T)) := by
  unfold ModuleState.is_expired
  cases st.expires_in <;> rfl

lemma resolveStep_weight_irrel (states : List (String × ModuleState))
    (r : PriorityRule) (st : ModuleState) (v w0 : Int)
    (hlk : lookupKey r.module states = some st)
    (hov : st.weight_override = some w0) (best : Option String × Option Int) :
    resolveStep states best { r with weight := v } = resolveStep states best r := by
  simp [resolveStep, hlk, hov]

/-! ### Claim theorems -/

/-- C1: `_resolve_priority` walks the rules in declaration order; among the
rules whose module has a stored state and whose `states` list is empty or
contains the state's label, it returns the screen of the first rule attaining
the maximum effective weight — the running maximum is updated only on a
strictly greater weight, so the earlier-declared rule wins ties — and it
returns none when no rule matches. -/
theorem resolve_priority_first_max (rules : List PriorityRule)
    (states : List (String × ModuleState)) :
    resolvePriority rules states =
      Option.map PriorityRule.screen
        (firstMaxBy (effWeight states) (rules.filter (ruleMatches states)))
    ∧ (rules.filter (ruleMatches states) = [] →
        resolvePriority rules states = none)
    ∧ (∀ r, firstMaxBy (effWeight states) (rules.filter (ruleMatches states)) = some r →
        ∃ l1 l2, rules.filter (ruleMatches states) = l1 ++ r :: l2 ∧
          (∀ q ∈ l1, effWeight states q < effWeight states r) ∧
          (∀ q ∈ l2, effWeight states q ≤ effWeight states r)) := by
  have hmain : resolvePriority rules states =
      Option.map PriorityRule.screen
        (firstMaxBy (effWeight states) (rules.filter (ruleMatches states))) := by
    unfold resolvePriority
    rw [foldl_resolveStep_start states rules]
    cases hF : firstMaxBy (effWeight states) (rules.filter (ruleMatches states)) <;>
      simp [hF]
  refine ⟨hmain, ?_, ?_⟩
  · intro hnil
    rw [hmain, hnil]
    simp [firstMaxBy]
  · intro r hr
    exact firstMaxBy_first_argmax (effWeight states) _ r hr

/-- Witness for C1: the spec's worked scenario, evaluated. -/
theorem resolve_priority_first_max_witness :
    resolvePriority [cameraRule, radarRule]
        [("camera", cameraState), ("radar", radarState)] = some "camera" := by
  have h := (resolve_priority_first_max [cameraRule, radarRule]
    [("camera", cameraState), ("radar", radarState)]).1
  rw [h]
  decide

/-- C2: for a stored ModuleState, the effective timeout is `expires_in` when
set, else the manager default; a timeout `≤ 0` never expires; otherwise the
state is dropped by `update` exactly when `now - timestamp` strictly exceeds
the timeout, and a dropped state stays dropped on later updates (until a new
report). -/
theorem state_expiry_drop (mgr : Manager) (name : String) (st : ModuleState)
    (now dt : ℚ)
    (hnd : (mgr.states.map Prod.fst).Nodup)
    (hlk : lookupKey name mgr.states = some st) :
    (st.expires_in.getD mgr.state_timeout ≤ 0 →
        st.is_expired now mgr.state_timeout = false)
    ∧ (0 < st.expires_in.getD mgr.state_timeout →
        (st.is_expired now mgr.state_timeout = true ↔
          now - st.timestamp > st.expires_in.getD mgr.state_timeout))
    ∧ lookupKey name (mgr.update now dt).1.states =
        (if st.is_expired now mgr.state_timeout then none else some st)
    ∧ (st.is_expired now mgr.state_timeout = true →
        ∀ rule : PriorityRule, rule.module = name →
          ruleMatches (mgr.expireStates now) rule = false)
    ∧ (st.is_expired now mgr.state_timeout = true →
        ∀ now2 dt2,
          lookupKey name (((mgr.update now dt).1.update now2 dt2)).1.states = none) := by
  have hdrop : lookupKey name (mgr.update now dt).1.states =
      (if st.is_expired now mgr.state_timeout then none else some st) := by
    rw [update_states]
    unfold Manager.expireStates
    rw [lookupKey_filter_nodup _ name st mgr.states hnd hlk]
    cases h : st.is_expired now mgr.state_timeout <;> simp [h]
  refine ⟨?_, ?_, hdrop, ?_, ?_⟩
  · intro h
    rw [is_expired_spec, if_pos h]
  · intro h
    rw [is_expired_spec, if_neg (not_le.mpr h)]
    exact decide_eq_true_iff
  · intro hexp rule hrm
    have hgone : lookupKey name (mgr.expireStates now) = none := by
      unfold Manager.expireStates
      rw [lookupKey_filter_nodup _ name st mgr.states hnd hlk]
      simp [hexp]
    unfold ruleMatches
    rw [hrm, hgone]
  · intro hexp now2 dt2
    rw [update_states]
    unfold Manager.expireStates
    apply lookupKey_filter_none
    rw [hdrop, if_pos hexp]

/-- Witness for C2: a 20-second-old report against the default 15-second
timeout is dropped by `update`. -/
theorem state_expiry_drop_witness :
    lookupKey "camera" (stateManager.update 20 1).1.states = none := by
  have h := (state_expiry_drop stateManager "camera" cameraState 20 1
    (by simp [stateManager]) (by simp [stateManager, lookupKey])).2.2.1
  rw [h]
  have hexp : cameraState.is_expired 20 15 = true := by
    norm_num [ModuleState.is_expired, cameraState]
  simp [stateManager, hexp]

/-- C3: for a rule whose module's stored state carries a `weight_override`,
priority resolution uses that override — the rule's static weight is
irrelevant to the outcome — and with no override the rule's static weight is
the effective weight. -/
theorem weight_override_precedence (states : List (String × ModuleState))
    (r : PriorityRule) (st : ModuleState)
    (hlk : lookupKey r.module states = some st) :
    (∀ w0, st.weight_override = some w0 →
      effWeight states r = w0 ∧
      ∀ (v : Int) (pre post : List PriorityRule),
        resolvePriority (pre ++ { r with weight := v } :: post) states =
          resolvePriority (pre ++ r :: post) states)
    ∧ (st.weight_override = none → effWeight states r = r.weight) := by
  constructor
  · intro w0 hov
    constructor
    · simp [effWeight, hlk, hov]
    · intro v pre post
      unfold resolvePriority
      rw [List.foldl_append, List.foldl_append, List.foldl_cons, List.foldl_cons,
        resolveStep_weight_irrel states r st v w0 hlk hov]
  · intro hov
    simp [effWeight, hlk, hov]

/-- Witness for C3: an override of 1000 on the camera state makes the
camera rule beat the radar rule even with its static weight lowered to 0. -/
theorem weight_override_precedence_witness :
    effWeight [("camera", overrideState)] cameraRule = 1000 ∧
    resolvePriority [{ cameraRule with weight := 0 }, radarRule]
        [("camera", overrideState), ("radar", radarState)] =
      resolvePriority [cameraRule, radarRule]
        [("camera", overrideState), ("radar", radarState)] := by
  constructor
  · exact ((weight_override_precedence [("camera", overrideState)] cameraRule
      overrideState (by decide)).1 1000 (by decide)).1
  · exact ((weight_override_precedence [("camera", overrideState), ("radar", radarState)]
      cameraRule overrideState (by decide)).1 1000 (by decide)).2 0 [] [radarRule]

lemma initIdleCycle_mem (cycle0 modNames : List String) :
    ∀ n ∈ initIdleCycle cycle0 modNames, n ∈ modNames := by
  intro n hn
  simp only [initIdleCycle] at hn
  split_ifs at hn <;>
    first
      | exact hn
      | exact (List.mem_filter.mp hn).1
      | (have hdec := (List.mem_filter.mp hn).2; simpa using hdec)

lemma initIdleCycle_fallback (cycle0 modNames : List String)
    (hfil : cycle0.filter (fun n => decide (n ∈ modNames)) = [])
    (hm : modNames ≠ []) :
    initIdleCycle cycle0 modNames = modNames := by
  simp only [initIdleCycle]
  by_cases h0 : cycle0 = []
  · have hall : modNames.filter (fun n => decide (n ∈ modNames)) = modNames :=
      List.filter_eq_self.mpr (fun a ha => by simpa using ha)
    simp [h0, hm, hall]
  · simp [h0, hfil, hm]

/-- C6: `unregister(name)` on a registered module (whose `on_unload` behaves)
removes it, fires `on_unload`, drops its stored state, and — when it was the
active screen — clears `current_screen`, after which `render` and
`handle_event` touch no module. -/
theorem unregister_removes (mgr : Manager) (name : String) (m : ScreenModule)
    (hm : lookupKey name mgr.modules = some m) (hok : m.unloadRaises = false) :
    lookupKey name (mgr.unregister name).1.modules = none ∧
    lookupKey name (mgr.unregister name).1.states = none ∧
    (mgr.unregister name).2.1 = [Hook.onUnload name] ∧
    (mgr.unregister name).2.2 = false ∧
    (mgr.current_screen = some name →
      (mgr.unregister name).1.current_screen = none ∧
      (mgr.unregister name).1.renderTarget = none ∧
      (mgr.unregister name).1.handleEventTarget = none) := by
  unfold Manager.unregister
  rw [hm]
  dsimp only [ScreenModule.unbind]
  rw [hok]
  by_cases hc : mgr.current_screen = some name
  · simp [hc, lookupKey_popKey_self, Manager.renderTarget, Manager.handleEventTarget]
  · simp [hc, lookupKey_popKey_self]

/-- Witness for C6: unregistering the active screen `a` leaves no current
screen and no render target. -/
theorem unregister_removes_witness :
    (unregManager.unregister "a").1.current_screen = none ∧
    (unregManager.unregister "a").1.renderTarget = none := by
  have h := unregister_removes unregManager "a" sampleModule (by decide) (by decide)
  exact ⟨(h.2.2.2.2 rfl).1, (h.2.2.2.2 rfl).2.1⟩

/-- C7 counterexample: a raising `on_unload` is not isolated — it escapes
`unbind` and aborts the surrounding `unregister`, so the stored state
survives and the active screen is not cleared. -/
theorem unbind_raise_escapes :
    (raiseManager.unregister "a").2.2 = true ∧
    lookupKey "a" (raiseManager.unregister "a").1.states = some cameraState ∧
    (raiseManager.unregister "a").1.current_screen = some "a" := by
  refine ⟨?_, ?_, ?_⟩ <;>
    simp [Manager.unregister, raiseManager, sampleModule, cameraState,
      ScreenModule.unbind, lookupKey]

/-- C7 (amended): `unbind` unconditionally clears `active`, manager, app and
name — even when `on_unload` raises — but the exception is not caught or
logged: it propagates to the caller exactly when the hook raises. -/
theorem unbind_clears_fields (m : ScreenModule) :
    (m.unbind).1.active = false ∧
    (m.unbind).1.hasManager = false ∧
    (m.unbind).1.hasApp = false ∧
    (m.unbind).1.name = none ∧
    (m.unbind).2 = m.unloadRaises := by
  simp [ScreenModule.unbind]

/-- C8: `publish` delivers to every handler of the snapshot exactly once, in
subscription order; a raising handler is caught, stopping neither the
remaining deliveries nor the caller; `subscribe` rejects a non-callable with
a type error and appends a callable to the topic's list. -/
theorem publish_delivers_all {π : Type} (bus : EventBus π) (event : String)
    (payload : π) :
    bus.publish event payload =
      ((lookupKey event bus.handlers).getD []).map
        (fun h => (h.hid, h.raisesOn payload))
    ∧ (∀ h : Handler π, h.callable = false →
        bus.subscribe event h = Except.error "event handler must be callable")
    ∧ (∀ h : Handler π, h.callable = true →
        bus.subscribe event h = Except.ok { bus with
          handlers := setKey event
            ((lookupKey event bus.handlers).getD [] ++ [h]) bus.handlers }) := by
  refine ⟨?_, ?_, ?_⟩
  · unfold EventBus.publish
    generalize (lookupKey event bus.handlers).getD [] = hs
    induction hs with
    | nil => rfl
    | cons h t ih => simp [runHandlers, ih]
  · intro h hc
    simp [EventBus.subscribe, hc]
  · intro h hc
    simp [EventBus.subscribe, hc]

/-- Witness for C8: on a two-handler topic whose second handler raises, both
handlers run in order; subscribing a non-callable fails. -/
theorem publish_delivers_all_witness :
    sampleBus.publish "topic" 0 = [(1, false), (2, true)] ∧
    sampleBus.subscribe "topic" badHandler =
      Except.error "event handler must be callable" := by
  constructor
  · rw [(publish_delivers_all sampleBus "topic" 0).1]
    rfl
  · exact (publish_delivers_all sampleBus "topic" 0).2.1 badHandler rfl

/-- C9: after construction every name in the idle cycle is a registered
module name — unregistered names are silently filtered out — and an empty or
emptied cycle falls back to all registered names in registration order. -/
theorem init_idle_cycle_registered (mods : List (String × ScreenModule))
    (cycle0 : List String) (rules : List PriorityRule) (timeout dwell : ℚ) :
    (∀ n ∈ (mkManager mods cycle0 rules timeout dwell).idle_cycle,
        (lookupKey n (mkManager mods cycle0 rules timeout dwell).modules).isSome)
    ∧ (cycle0.filter (fun n => decide (n ∈ mods.map Prod.fst)) = [] → mods ≠ [] →
        (mkManager mods cycle0 rules timeout dwell).idle_cycle = mods.map Prod.fst)
    ∧ (cycle0 = [] → mods ≠ [] →
        (mkManager mods cycle0 rules timeout dwell).idle_cycle = mods.map Prod.fst) := by
  have hkeys : (mkManager mods cycle0 rules timeout dwell).modules.map Prod.fst =
      mods.map Prod.fst := by
    simp [mkManager, Function.comp]
  have hne : mods ≠ [] → mods.map Prod.fst ≠ [] := by
    intro h hmap
    exact h (List.map_eq_nil_iff.mp hmap)
  refine ⟨?_, ?_, ?_⟩
  · intro n hn
    rw [lookupKey_isSome_iff, hkeys]
    exact initIdleCycle_mem cycle0 (mods.map Prod.fst) n hn
  · intro hfil hm
    exact initIdleCycle_fallback cycle0 (mods.map Prod.fst) hfil (hne hm)
  · intro h0 hm
    subst h0
    exact initIdleCycle_fallback [] (mods.map Prod.fst) rfl (hne hm)

/-- Witness for C9: a configured cycle naming only the unregistered `x`
falls back to the registered names. -/
theorem init_idle_cycle_registered_witness :
    (mkManager [("a", sampleModule)] ["x"] [] 15 20).idle_cycle = ["a"] := by
  have h := (init_idle_cycle_registered [("a", sampleModule)] ["x"] [] 15 20).2.1
    (by decide) (by simp)
  simpa using h

/-- C10: `set_active` on an unregistered name still zeroes the idle timer
while everything else — current screen, module flags, idle cursor — is left
unchanged and no hook fires. -/
theorem set_active_unknown_resets_timer (mgr : Manager) (name : String)
    (h : lookupKey name mgr.modules = none) :
    mgr.set_active name = ({ mgr with idle_timer := 0 }, []) ∧
    (mgr.set_active name).1.current_screen = mgr.current_screen ∧
    (mgr.set_active name).1.modules = mgr.modules ∧
    (mgr.set_active name).1.idle_index = mgr.idle_index ∧
    (mgr.set_active name).1.idle_timer = 0 := by
  have hmain : mgr.set_active name = ({ mgr with idle_timer := 0 }, []) := by
    unfold Manager.set_active Manager.activate
    dsimp only
    rw [h]
  exact ⟨hmain, by rw [hmain], by rw [hmain], by rw [hmain], by rw [hmain]⟩

/-- Witness for C10: `set_active` of the unknown `zz` only zeroes the
timer. -/
theorem set_active_unknown_witness :
    idleManager.set_active "zz" = ({ idleManager with idle_timer := 0 }, []) :=
  (set_active_unknown_resets_timer idleManager "zz" (by decide)).1

/-! ### Lemmas for the idle-cycle progress claim -/

lemma idxOf_get (x : String) :
    ∀ (l : List String), l.Nodup → ∀ (i : Nat) (h : i < l.length),
      l.get ⟨i, h⟩ = x → idxOf x l = i
  | [], _, i, h => by simp at h
  | y :: ys, hnd, 0, h => by
      intro hx
      simp only [List.get] at hx
      simp [idxOf, hx]
  | y :: ys, hnd, i + 1, h => by
      intro hx
      simp only [List.get] at hx
      rw [List.nodup_cons] at hnd
      have hxmem : x ∈ ys := hx ▸ (ys.get_mem i _)
      have hyx : ¬ y = x := fun he => hnd.1 (he ▸ hxmem)
      simp only [idxOf, if_neg hyx]
      rw [idxOf_get x ys hnd.2 i (by simpa using h) hx]

lemma mod_succ_mod (k N : Nat) : (k % N + 1) % N = (k + 1) % N := by
  have h1 : k % N + 1 + N * (k / N) = k + 1 := by
    have := Nat.mod_add_div k N
    omega
  calc (k % N + 1) % N
      = (k % N + 1 + N * (k / N)) % N := (Nat.add_mul_mod_self_left _ _ _).symm
    _ = (k + 1) % N := by rw [h1]

lemma resolveTarget_no_rules (mgr : Manager) (h : mgr.rules = []) :
    mgr.resolveTarget = none := by
  unfold Manager.resolveTarget resolvePriority
  rw [h]
  rfl

lemma update_no_rules (mgr : Manager) (now dt : ℚ) (h : mgr.rules = []) :
    mgr.update now dt =
      Manager.advanceIdle { mgr with states := mgr.expireStates now } dt := by
  unfold Manager.update
  dsimp only
  rw [resolveTarget_no_rules { mgr with states := mgr.expireStates now } h]

lemma currentInCycle_of_mem (mgr : Manager) (cs : String)
    (hc : mgr.current_screen = some cs) (hmem : cs ∈ mgr.idle_cycle) :
    mgr.currentInCycle = true := by
  unfold Manager.currentInCycle
  rw [hc]
  simpa using hmem

lemma advanceIdle_step (mgr : Manager) (dt : ℚ)
    (hne : mgr.idle_cycle ≠ [])
    (hin : mgr.currentInCycle = true)
    (hge : ¬ (mgr.idle_timer + dt < mgr.idle_dwell)) :
    mgr.advanceIdle dt =
      Manager.activate
        { mgr with
          idle_timer := 0
          idle_index := (mgr.idle_index + 1) % mgr.idle_cycle.length }
        (mgr.idle_cycle.getD ((mgr.idle_index + 1) % mgr.idle_cycle.length) "") := by
  unfold Manager.advanceIdle
  rw [if_neg hne, if_neg (by simp [hin]), if_neg hge]

lemma idle_iter_invariant (mgr : Manager) (C : List String) (D now : ℚ)
    (hC : mgr.idle_cycle = C) (hCne : C ≠ []) (hnd : C.Nodup) (hD : 0 < D)
    (hdwell : mgr.idle_dwell = D) (hrules : mgr.rules = [])
    (hreg : ∀ n ∈ C, (lookupKey n mgr.modules).isSome)
    (htimer : mgr.idle_timer = 0) (hidx : mgr.idle_index = 0)
    (hcur : mgr.current_screen = some (C.getD 0 "")) :
    ∀ k : Nat,
      (mgr.updateIter now D k).idle_cycle = C ∧
      (mgr.updateIter now D k).idle_dwell = D ∧
      (mgr.updateIter now D k).rules = [] ∧
      (∀ n ∈ C, (lookupKey n (mgr.updateIter now D k).modules).isSome) ∧
      (mgr.updateIter now D k).idle_timer = 0 ∧
      (mgr.updateIter now D k).idle_index = k % C.length ∧
      (mgr.updateIter now D k).current_screen = some (C.getD (k % C.length) "") := by
  have hNpos : 0 < C.length := List.length_pos.mpr hCne
  intro k
  induction k with
  | zero =>
      refine ⟨hC, hdwell, hrules, hreg, htimer, ?_, ?_⟩
      · rw [Manager.updateIter, hidx, Nat.zero_mod]
      · rw [Manager.updateIter, hcur, Nat.zero_mod]
  | succ k ih =>
      obtain ⟨ih1, ih2, ih3, ih4, ih5, ih6, ih7⟩ := ih
      set M := mgr.updateIter now D k with hM
      have hstep : mgr.updateIter now D (k + 1) = (M.update now D).1 := rfl
      set M1 : Manager := { M with states := M.expireStates now } with hM1
      have hup : M.update now D = Manager.advanceIdle M1 D :=
        update_no_rules M now D ih3
      have hmem : C.getD (k % C.length) "" ∈ C := by
        rw [List.getD_eq_get C "" (Nat.mod_lt k hNpos)]
        exact C.get_mem _ _
      have hinc : M1.currentInCycle = true := by
        apply currentInCycle_of_mem M1 (C.getD (k % C.length) "")
        · exact ih7
        · show C.getD (k % C.length) "" ∈ M1.idle_cycle
          rw [show M1.idle_cycle = M.idle_cycle from rfl, ih1]
          exact hmem
      have hadv : Manager.advanceIdle M1 D =
          Manager.activate
            { M1 with
              idle_timer := 0
              idle_index := (M1.idle_index + 1) % M1.idle_cycle.length }
            (M1.idle_cycle.getD ((M1.idle_index + 1) % M1.idle_cycle.length) "") := by
        apply advanceIdle_step
        · show M.idle_cycle ≠ []
          rw [ih1]; exact hCne
        · exact hinc
        · show ¬ (M.idle_timer + D < M.idle_dwell)
          rw [ih5, ih2]
          simp [hD.le]
      set M2 : Manager :=
        { M1 with
          idle_timer := 0
          idle_index := (M1.idle_index + 1) % M1.idle_cycle.length } with hM2
      have hM2cyc : M2.idle_cycle = C := ih1
      have hM2idx : M2.idle_index = (k + 1) % C.length := by
        show (M1.idle_index + 1) % M1.idle_cycle.length = (k + 1) % C.length
        rw [show M1.idle_index = M.idle_index from rfl, ih6,
          show M1.idle_cycle = M.idle_cycle from rfl, ih1, mod_succ_mod]
      have hname : M1.idle_cycle.getD ((M1.idle_index + 1) % M1.idle_cycle.length) "" =
          C.getD ((k + 1) % C.length) "" := by
        rw [show M1.idle_cycle = M.idle_cycle from rfl, ih1,
          show M1.idle_index = M.idle_index from rfl, ih6, mod_succ_mod]
      have hlt : (k + 1) % C.length < C.length := Nat.mod_lt _ hNpos
      have hnmem : C.getD ((k + 1) % C.length) "" ∈ C := by
        rw [List.getD_eq_get C "" hlt]
        exact C.get_mem _ _
      have hreg2 : (lookupKey (C.getD ((k + 1) % C.length) "") M2.modules).isSome := by
        rw [lookupKey_isSome_iff]
        rw [show M2.modules = M.modules from rfl]
        rw [← lookupKey_isSome_iff]
        exact ih4 _ hnmem
      obtain ⟨a1, a2, a3, a4, a5, a6, a7⟩ :=
        activate_fields M2 (C.getD ((k + 1) % C.length) "")
      have hfin : mgr.updateIter now D (k + 1) =
          (Manager.activate M2 (C.getD ((k + 1) % C.length) "")).1 := by
        rw [hstep, hup, hadv, hname]
      refine ⟨?_, ?_, ?_, ?_, ?_, ?_, ?_⟩
      · rw [hfin, a3, hM2cyc]
      · rw [hfin, a5]
        exact ih2
      · rw [hfin, a2]
        exact ih3
      · intro n hn
        rw [hfin, lookupKey_isSome_iff, a7,
          show M2.modules = M.modules from rfl, ← lookupKey_isSome_iff]
        exact ih4 n hn
      · rw [hfin, a4]
      · rw [hfin]
        rw [activate_idle_index M2 _ hreg2 (by rw [hM2cyc]; exact hnmem)]
        rw [hM2cyc]
        apply idxOf_get _ C hnd _ hlt
        rw [List.getD_eq_get C "" hlt]
      · rw [hfin, activate_current M2 _ hreg2]

/-- C4 counterexample: one `update` call with `dt = 40` accumulates
`2 · 20` seconds of idle time on the `[a, b, c]` cycle (dwell 20) but
advances a single step: the screen is `b`, not `cycle[2 mod 3] = c` as the
claim demands at `k = 2`. -/
theorem idle_overshoot_counterexample :
    (idleManager.update 0 40).1.current_screen = some "b" ∧
    (idleManager.update 0 40).1.current_screen ≠
      some (["a", "b", "c"].getD (2 % 3) "") := by
  have h40 : ¬((40 : ℚ) < 20) := by norm_num
  have h : (idleManager.update 0 40).1.current_screen = some "b" := by
    simp [Manager.update, Manager.expireStates, Manager.resolveTarget, resolvePriority,
      resolveStep, Manager.advanceIdle, Manager.currentInCycle, Manager.activate,
      Manager.hidePrevious, lookupKey, mapKey, idxOf, idleManager, sampleModule,
      firstMaxBy, List.getD, h40]
  refine ⟨h, ?_⟩
  rw [h]
  decide

/-- C4 (amended): on a duplicate-free idle cycle of registered names with
dwell `D > 0`, starting at `cycle[0]` with cursor and timer zero, `k`
successive `update` calls each contributing exactly `D` (so the timer hits
the dwell exactly, with nothing discarded) leave the active screen at
`cycle[k mod N]` and the cursor at `k mod N`; a single call overshooting the
dwell advances only one step, so arbitrary call patterns accumulating `D·k`
can lag behind `cycle[k mod N]`. -/
theorem idle_cycle_progress (mgr : Manager) (C : List String) (D now : ℚ)
    (k : Nat)
    (hC : mgr.idle_cycle = C) (hCne : C ≠ []) (hnd : C.Nodup) (hD : 0 < D)
    (hdwell : mgr.idle_dwell = D) (hrules : mgr.rules = [])
    (hreg : ∀ n ∈ C, (lookupKey n mgr.modules).isSome)
    (htimer : mgr.idle_timer = 0) (hidx : mgr.idle_index = 0)
    (hcur : mgr.current_screen = some (C.getD 0 "")) :
    (mgr.updateIter now D k).current_screen = some (C.getD (k % C.length) "") ∧
    (mgr.updateIter now D k).idle_index = k % C.length := by
  obtain ⟨_, _, _, _, _, h6, h7⟩ :=
    idle_iter_invariant mgr C D now hC hCne hnd hD hdwell hrules hreg htimer hidx hcur k
  exact ⟨h7, h6⟩

/-- Witness for the amended C4: two exact-dwell updates reach `c`. -/
theorem idle_cycle_progress_witness :
    (idleManager.updateIter 0 20 2).current_screen = some "c" := by
  have h := (idle_cycle_progress idleManager ["a", "b", "c"] 20 0 2 rfl (by decide)
    (by decide) (by norm_num) rfl rfl (by decide) rfl rfl rfl).1
  simpa using h

/-- C5 counterexample: `set_active` on the already-active module is not
hook-free — it fires `on_hide` then `on_show` on that same module again. -/
theorem reactivation_fires_hooks :
    (activeManager.set_active "a").2 = [Hook.onHide "a", Hook.onShow "a"] ∧
    (activeManager.set_active "a").2 ≠ [] := by
  have h : (activeManager.set_active "a").2 = [Hook.onHide "a", Hook.onShow "a"] := by
    simp [Manager.set_active, Manager.activate, Manager.hidePrevious, activeManager,
      sampleModule, lookupKey, mapKey, idxOf]
  exact ⟨h, by rw [h]; simp⟩

/-- C5 (amended): re-activation through `update` is guarded — when the
resolved target equals the current screen no hook fires and screen and
modules are untouched (only the idle timer is zeroed) — but `_activate`
itself is unconditional, so `set_active` on the already-active (registered,
non-empty-named) screen fires `on_hide` then `on_show` on it again. -/
theorem update_reactivation_guarded :
    (∀ (mgr : Manager) (now dt : ℚ) (s : String),
      Manager.resolveTarget { mgr with states := mgr.expireStates now } = some s →
      mgr.current_screen = some s →
      (mgr.update now dt).2 = [] ∧
      (mgr.update now dt).1.current_screen = some s ∧
      (mgr.update now dt).1.modules = mgr.modules)
    ∧ (∀ (mgr : Manager) (name : String) (m : ScreenModule),
      lookupKey name mgr.modules = some m → mgr.current_screen = some name →
      name ≠ "" →
      (mgr.set_active name).2 = [Hook.onHide name, Hook.onShow name]) := by
  constructor
  · intro mgr now dt s hr hc
    have hstep : mgr.update now dt =
        ({ { mgr with states := mgr.expireStates now } with idle_timer := 0 }, []) := by
      unfold Manager.update
      dsimp only
      rw [hr]
      have hnot : ¬ (some s ≠ mgr.current_screen) := by
        rw [hc]
        simp
      dsimp only
      rw [if_neg hnot]
    exact ⟨by rw [hstep], by rw [hstep]; exact hc, by rw [hstep]⟩
  · intro mgr name m hm hc hne
    unfold Manager.set_active Manager.activate Manager.hidePrevious
    dsimp only
    rw [hm, hc]
    dsimp only
    rw [if_neg hne, hm]
    dsimp only
    rfl

/-- Witness for the amended C5: an `update` that re-resolves the current
screen fires nothing; a `set_active` of the already-active screen fires the
hook pair. -/
theorem update_reactivation_guarded_witness :
    (ruleManager.update 0 1).2 = [] ∧
    (activeManager.set_active "a").2 = [Hook.onHide "a", Hook.onShow "a"] := by
  constructor
  · have hr : Manager.resolveTarget
        { ruleManager with states := ruleManager.expireStates 0 } = some "a" := by
      norm_num [Manager.resolveTarget, Manager.expireStates, ruleManager,
        ModuleState.is_expired, resolvePriority, resolveStep, lookupKey]
      intro h
      exact absurd h (by decide)
    exact (update_reactivation_guarded.1 ruleManager 0 1 "a" hr rfl).1
  · exact update_reactivation_guarded.2 activeManager "a"
      { sampleModule with active := true } (by decide) rfl (by decide)

end Sentinel
